import Mathlib

/-!
Verification development for the QR platform service (`app/main.py`).

The service is orchestration around external capabilities (the `qrcode`
encoder, the OpenCV detector, the `easyocr` recognizer, PIL image
operations, and the `zlib` compressor).  Those externals are modelled as
an abstract capability structure `Caps` carrying the round-trip laws the
spec assigns to them; everything the repository itself does — payload
marker handling, error-correction retry, rate limiting, audit logging,
statistics and CSV export — is translated directly from `app/main.py`.
The `base64` transform is fully deterministic, so it is implemented
concretely (standard alphabet, `=` padding, Python's
discard-non-alphabet-then-check-length decoding behaviour).
-/

/-- The 64 characters of the standard base64 alphabet, in value order. -/
def b64Chars : List Char :=
  ['A','B','C','D','E','F','G','H','I','J','K','L','M','N','O','P',
   'Q','R','S','T','U','V','W','X','Y','Z',
   'a','b','c','d','e','f','g','h','i','j','k','l','m','n','o','p',
   'q','r','s','t','u','v','w','x','y','z',
   '0','1','2','3','4','5','6','7','8','9','+','/']

/-- Character for a 6-bit value (used by `base64.b64encode`). -/
def encChar (n : Nat) : Char := b64Chars.getD n '?'

/-- 6-bit value of an alphabet character, `none` off the alphabet. -/
def decChar (c : Char) : Option Nat := b64Chars.findIdx? (fun x => x = c)

/-- Byte lists to base64 characters, three bytes to four characters,
with `=` padding exactly as `base64.b64encode` produces it. -/
def b64EncodeBytes : List Nat → List Char
  | [] => []
  | [a] => [encChar (a / 4), encChar (a % 4 * 16), '=', '=']
  | [a, b] => [encChar (a / 4), encChar (a % 4 * 16 + b / 16), encChar (b % 16 * 4), '=']
  | a :: b :: c :: rest =>
      encChar (a / 4) :: encChar (a % 4 * 16 + b / 16) ::
      encChar (b % 16 * 4 + c / 64) :: encChar (c % 64) :: b64EncodeBytes rest

/-- Python `base64.b64encode(..).decode('utf-8')`. -/
def b64encode (bs : List Nat) : String := String.mk (b64EncodeBytes bs)

/-- Decode groups of four base64 characters back to bytes; `=` padding is
accepted only at the very end, and any leftover of one to three
characters is an error (Python's "incorrect padding" failure). -/
def b64DecodeGroups : List Char → Option (List Nat)
  | [] => some []
  | c1 :: c2 :: c3 :: c4 :: rest =>
      match decChar c1, decChar c2 with
      | some w, some x =>
        if c3 = '=' ∧ c4 = '=' ∧ rest = [] then
          some [w * 4 + x / 16]
        else if c4 = '=' ∧ rest = [] then
          match decChar c3 with
          | some y => some [w * 4 + x / 16, x % 16 * 16 + y / 4]
          | none => none
        else
          match decChar c3, decChar c4, b64DecodeGroups rest with
          | some y, some z, some tail =>
              some ((w * 4 + x / 16) :: (x % 16 * 16 + y / 4) :: (y % 4 * 64 + z) :: tail)
          | _, _, _ => none
      | _, _ => none
  | _ => none

/-- Python `base64.b64decode` on a string: characters outside the
alphabet and `=` are discarded first (its `validate=False` default),
then the groups are decoded; `none` models `binascii.Error`. -/
def b64decode (s : String) : Option (List Nat) :=
  b64DecodeGroups (s.data.filter (fun c => (decChar c).isSome || c = '='))

theorem decChar_encChar : ∀ n < 64, decChar (encChar n) = some n := by decide

theorem encChar_ne_pad : ∀ n < 64, encChar n ≠ '=' := by decide

theorem isSome_decChar_encChar : ∀ n < 64, (decChar (encChar n)).isSome = true := by decide

/-- Every character emitted by the encoder survives the decoder's
discard filter. -/
theorem b64EncodeBytes_filter (bs : List Nat) (h : ∀ b ∈ bs, b < 256) :
    (b64EncodeBytes bs).filter (fun c => (decChar c).isSome || c = '=') = b64EncodeBytes bs := by
  induction bs using b64EncodeBytes.induct with
  | case1 => simp [b64EncodeBytes]
  | case2 a =>
      have ha : a < 256 := h a (by simp)
      simp [b64EncodeBytes, List.filter,
        isSome_decChar_encChar (a / 4) (by omega),
        isSome_decChar_encChar (a % 4 * 16) (by omega)]
  | case3 a b =>
      have ha : a < 256 := h a (by simp)
      have hb : b < 256 := h b (by simp)
      simp [b64EncodeBytes, List.filter,
        isSome_decChar_encChar (a / 4) (by omega),
        isSome_decChar_encChar (a % 4 * 16 + b / 16) (by omega),
        isSome_decChar_encChar (b % 16 * 4) (by omega)]
  | case4 a b c rest ih =>
      have ha : a < 256 := h a (by simp)
      have hb : b < 256 := h b (by simp)
      have hc : c < 256 := h c (by simp)
      have hrest : ∀ x ∈ rest, x < 256 := fun x hx => h x (by simp [hx])
      simp only [b64EncodeBytes, List.filter,
        isSome_decChar_encChar (a / 4) (by omega),
        isSome_decChar_encChar (a % 4 * 16 + b / 16) (by omega),
        isSome_decChar_encChar (b % 16 * 4 + c / 64) (by omega),
        isSome_decChar_encChar (c % 64) (by omega), Bool.true_or]
      rw [ih hrest]

/-- Decoding inverts encoding on byte lists. -/
theorem b64DecodeGroups_encode (bs : List Nat) (h : ∀ b ∈ bs, b < 256) :
    b64DecodeGroups (b64EncodeBytes bs) = some bs := by
  induction bs using b64EncodeBytes.induct with
  | case1 => simp [b64EncodeBytes, b64DecodeGroups]
  | case2 a =>
      have ha : a < 256 := h a (by simp)
      simp only [b64EncodeBytes, b64DecodeGroups,
        decChar_encChar (a / 4) (by omega),
        decChar_encChar (a % 4 * 16) (by omega)]
      simp
      omega
  | case3 a b =>
      have ha : a < 256 := h a (by simp)
      have hb : b < 256 := h b (by simp)
      have h3 : encChar (b % 16 * 4) ≠ '=' := encChar_ne_pad _ (by omega)
      simp only [b64DecodeGroups, b64EncodeBytes,
        decChar_encChar (a / 4) (by omega),
        decChar_encChar (a % 4 * 16 + b / 16) (by omega),
        decChar_encChar (b % 16 * 4) (by omega)]
      rw [if_neg (by simp [h3]), if_pos (by simp)]
      simp
      omega
  | case4 a b c rest ih =>
      have ha : a < 256 := h a (by simp)
      have hb : b < 256 := h b (by simp)
      have hc : c < 256 := h c (by simp)
      have hrest : ∀ x ∈ rest, x < 256 := fun x hx => h x (by simp [hx])
      have h3 : encChar (b % 16 * 4 + c / 64) ≠ '=' := encChar_ne_pad _ (by omega)
      have h4 : encChar (c % 64) ≠ '=' := encChar_ne_pad _ (by omega)
      simp only [b64DecodeGroups, b64EncodeBytes,
        decChar_encChar (a / 4) (by omega),
        decChar_encChar (a % 4 * 16 + b / 16) (by omega),
        decChar_encChar (b % 16 * 4 + c / 64) (by omega),
        decChar_encChar (c % 64) (by omega)]
      rw [if_neg (by simp [h3]), if_neg (by simp [h4]), ih hrest]
      simp
      omega

/-- Round trip through the concrete base64 codec. -/
theorem b64decode_b64encode (bs : List Nat) (h : ∀ b ∈ bs, b < 256) :
    b64decode (b64encode bs) = some bs := by
  unfold b64decode b64encode
  rw [show (String.mk (b64EncodeBytes bs)).data = b64EncodeBytes bs from rfl]
  rw [b64EncodeBytes_filter bs h, b64DecodeGroups_encode bs h]

/-- Python `s.endswith(suffix)`. -/
def strEndsWith (s suffix : String) : Bool := decide (suffix.data <:+ s.data)

/-- Python `s.strip()`: drop whitespace from both ends. -/
def pyStrip (s : String) : String :=
  String.mk (((s.data.dropWhile Char.isWhitespace).reverse.dropWhile Char.isWhitespace).reverse)

/-- Python `s[:-n]` for `0 < n ≤ len(s)` (and `""` when `n ≥ len(s)`). -/
def strDropRight (s : String) (n : Nat) : String :=
  String.mk (s.data.take (s.data.length - n))

theorem strEndsWith_append (s t : String) : strEndsWith (s ++ t) t = true := by
  simp [strEndsWith, String.data_append, List.suffix_append]

theorem strDropRight_append (s t : String) :
    strDropRight (s ++ t) t.data.length = s := by
  unfold strDropRight
  rw [String.data_append, List.length_append, Nat.add_sub_cancel, List.take_left]

theorem strDropRight_append11 (s : String) : strDropRight (s ++ "|compressed") 11 = s :=
  strDropRight_append s "|compressed"

theorem append_ne_empty_of_ne (s t : String) (ht : t ≠ "") : s ++ t ≠ "" := by
  intro hcontra
  have hd := congrArg String.data hcontra
  rw [String.data_append] at hd
  rcases List.append_eq_nil.mp hd with ⟨-, h2⟩
  exact ht (by cases t with | mk d => simp at h2; simp [h2])

/-- Error-correction levels the code requests: `ERROR_CORRECT_L` first
(maximum data capacity), then `ERROR_CORRECT_M` on overflow. -/
inductive ECLevel where
  | L
  | M
deriving DecidableEq

/-- A Python exception as seen by the endpoint handlers: either an
`HTTPException(status, detail)` raised by the handler itself, or any
other exception (an external library fault). -/
inductive Exc where
  | http (status : Nat) (detail : String)
  | other (msg : String)
deriving DecidableEq

/-- Python `str(e)`: Starlette renders `HTTPException` as
`f"{status_code}: {detail}"`; other exceptions carry their message. -/
def excStr : Exc → String
  | .http status detail => toString status ++ ": " ++ detail
  | .other msg => msg

def validationMsg : String := "文本不能为空"

def capacityMsg : String := "文本过长，超出 QR 码容量限制，请缩短文本或启用压缩"

def logoMsg : String := "Logo 图像处理失败"

def noQrMsg : String := "未检测到二维码"

def decompressMsg : String := "解压失败，无效的压缩数据"

def noTextMsg : String := "未检测到文字或图表内容"

/-- The external capabilities the service delegates to, with the
round-trip laws the spec assigns to them as black boxes: the `zlib`
codec is a deterministic lossless byte-compression transform on byte
lists, Python's UTF-8 string codec is lossless, and a symbol rendered
by `qrcode` with the default colors is read back verbatim by the
OpenCV detector after the grayscale/contrast/sharpness preprocessing
(`grayRender` names that preprocessed symbol).  `qrFits ec data` is
whether `qr.make(fit=True)` succeeds at level `ec` without raising
`DataOverflowError`; `detect` returns `""` when no symbol is found,
mirroring `cv2.QRCodeDetector.detectAndDecode`; `readText` lists the
text of each region `easyocr` reports, and an `Except.error` of
`openGray`/`openRgb`/`readText`/`pasteLogo` is an exception raised by
the external library. -/
structure Caps where
  Img : Type
  utf8Encode : String → List Nat
  utf8Decode : List Nat → Option String
  zlibCompress : List Nat → List Nat
  zlibDecompress : List Nat → Option (List Nat)
  qrFits : ECLevel → String → Bool
  render : String → ECLevel → String → String → Img
  grayRender : String → ECLevel → Img
  openGray : Img → Except String Img
  detect : Img → String
  openRgb : Img → Except String Img
  readText : Img → Except String (List String)
  pasteLogo : Img → Img → Except String Img
  utf8_roundtrip : ∀ s, utf8Decode (utf8Encode s) = some s
  utf8_bytes : ∀ s, ∀ b ∈ utf8Encode s, b < 256
  zlib_roundtrip : ∀ bs, (∀ b ∈ bs, b < 256) → zlibDecompress (zlibCompress bs) = some bs
  zlib_bytes : ∀ bs, (∀ b ∈ bs, b < 256) → ∀ b ∈ zlibCompress bs, b < 256
  openGray_render : ∀ d ec,
    openGray (render d ec "#000000" "#FFFFFF") = Except.ok (grayRender d ec)
  detect_grayRender : ∀ d ec, detect (grayRender d ec) = d

/-- The payload actually fed to the QR encoder (`generate_qr` lines
137-139): the text itself, or
`base64.b64encode(zlib.compress(text.encode('utf-8'))).decode('utf-8') + "|compressed"`. -/
def encodeData (ext : Caps) (text : String) (compress : Bool) : String :=
  if compress then
    b64encode (ext.zlibCompress (ext.utf8Encode text)) ++ "|compressed"
  else text

/-- Level selection of `generate_qr` lines 142-152: try `L`, on
`DataOverflowError` retry once at `M`, otherwise report overflow. -/
def ecFit (ext : Caps) (data : String) : Option ECLevel :=
  if ext.qrFits .L data then some .L
  else if ext.qrFits .M data then some .M
  else none

/-- Body of the `/generate` handler's `try` block (validation, payload
preparation, level retry, rendering, optional logo compositing). -/
def generateCore (ext : Caps) (text : String) (compress : Bool) (color bg : String)
    (logo : Option ext.Img) : Except Exc ext.Img :=
  if text = "" then .error (.http 400 validationMsg)
  else
    match ecFit ext (encodeData ext text compress) with
    | none => .error (.http 400 capacityMsg)
    | some ec =>
      let img := ext.render (encodeData ext text compress) ec color bg
      match logo with
      | none => .ok img
      | some lg =>
        match ext.pasteLogo lg img with
        | .ok img2 => .ok img2
        | .error _ => .error (.http 400 logoMsg)

/-- Payload post-processing of `/decode` (lines 193-200): reject empty
payloads, then unconditionally reverse the compression transform
whenever the payload ends with the marker (`data[:-11]`, base64 decode,
decompress, UTF-8 decode; any failure is the decompression error). -/
def decodePayload (ext : Caps) (data : String) : Except Exc String :=
  if data = "" then .error (.http 400 noQrMsg)
  else if strEndsWith data "|compressed" then
    match b64decode (strDropRight data 11) with
    | none => .error (.http 400 decompressMsg)
    | some bs =>
      match ext.zlibDecompress bs with
      | none => .error (.http 400 decompressMsg)
      | some bs2 =>
        match ext.utf8Decode bs2 with
        | none => .error (.http 400 decompressMsg)
        | some text => .ok text
  else .ok data

/-- Body of the `/decode` handler's `try` block: open/preprocess,
detect, then post-process the decoded payload. -/
def decodeCore (ext : Caps) (image : ext.Img) : Except Exc String :=
  match ext.openGray image with
  | .error m => .error (.other m)
  | .ok im => decodePayload ext (ext.detect im)

/-- Body of the `/ocr` handler's `try` block: open/preprocess, read the
text regions, join them with newlines, strip, reject empty results. -/
def ocrCore (ext : Caps) (image : ext.Img) : Except Exc String :=
  match ext.openRgb image with
  | .error m => .error (.other m)
  | .ok im =>
    match ext.readText im with
    | .error m => .error (.other m)
    | .ok regions =>
      let text := pyStrip (String.intercalate "\n" regions)
      if text = "" then .error (.http 400 noTextMsg)
      else .ok text

/-- One row of the `logs` table. -/
structure AuditRecord where
  id : Nat
  ip : String
  timestamp : Nat
  action : String
  details : String
deriving DecidableEq

/-- Per-key window of the rate limiter. -/
structure RLEntry where
  count : Nat
  windowStart : Nat
deriving DecidableEq

/-- Rate-limit keys: `(client IP, endpoint path)`. -/
abbrev RLKey := String × String

def RLState := RLKey → Option RLEntry

/-- Observable state of the service: the audit table (in insertion
order, ids assigned by `AUTOINCREMENT` starting at 1) and the rate
limiter's counters. -/
structure World where
  audit : List AuditRecord
  nextId : Nat
  rl : RLState

def emptyWorld : World := { audit := [], nextId := 1, rl := fun _ => none }

/-- Modelled from the spec: the `slowapi` limiter (`"5/minute"`, keyed
by client IP per endpoint) is an external dependency not in `src/`;
following §4.1 it is a fixed 60-second window admitting 5 calls per
`(client IP, endpoint)` key, counted independently per key. -/
def rlHit (st : RLState) (k : RLKey) (now : Nat) : Bool × RLState :=
  match st k with
  | none => (true, fun q => if q = k then some { count := 1, windowStart := now } else st q)
  | some e =>
    if e.windowStart + 60 ≤ now then
      (true, fun q => if q = k then some { count := 1, windowStart := now } else st q)
    else if e.count < 5 then
      (true, fun q =>
        if q = k then some { count := e.count + 1, windowStart := e.windowStart } else st q)
    else (false, st)

/-- `log_action`: `INSERT INTO logs (ip, timestamp, action, details)`. -/
def log_action (w : World) (ip : String) (now : Nat) (action details : String) : World :=
  { w with
    audit := w.audit ++
      [{ id := w.nextId, ip := ip, timestamp := now, action := action, details := details }],
    nextId := w.nextId + 1 }

/-- Responses the three operation endpoints can produce. -/
inductive Resp (Img : Type) where
  | png (img : Img)
  | decoded (text : String)
  | ocrText (text : String)
  | err (status : Nat) (msg : String)
  | rateLimited
deriving DecidableEq

def respStatus {Img : Type} : Resp Img → Nat
  | .err s _ => s
  | .rateLimited => 429
  | _ => 200

def respOk {Img : Type} : Resp Img → Bool
  | .png _ => true
  | .decoded _ => true
  | .ocrText _ => true
  | _ => false

/-- Success detail of a generation: `f"文本长度: {len(text)}, 压缩: {compress}"`. -/
def genDetails (text : String) (compress : Bool) : String :=
  "文本长度: " ++ toString text.length ++ ", 压缩: " ++ (if compress then "True" else "False")

/-- The `/generate` request end to end: limiter first (a rejection
produces the 429 handler response and, the path being excluded in the
middleware, no audit row); then the handler body, whose `except` branch
logs `generate_error` and re-raises as a 400 `HTTPException`. -/
def generate_qr (ext : Caps) (w : World) (now : Nat) (ip text : String) (compress : Bool)
    (color bg : String) (logo : Option ext.Img) : World × Resp ext.Img :=
  let hit := rlHit w.rl (ip, "/generate") now
  let w1 : World := { w with rl := hit.2 }
  if hit.1 = false then (w1, .rateLimited)
  else
    match generateCore ext text compress color bg logo with
    | .ok img => (log_action w1 ip now "generate" (genDetails text compress), .png img)
    | .error e => (log_action w1 ip now "generate_error" (excStr e), .err 400 (excStr e))

/-- The `/decode` request end to end. -/
def decode_qr (ext : Caps) (w : World) (now : Nat) (ip : String) (image : ext.Img) :
    World × Resp ext.Img :=
  let hit := rlHit w.rl (ip, "/decode") now
  let w1 : World := { w with rl := hit.2 }
  if hit.1 = false then (w1, .rateLimited)
  else
    match decodeCore ext image with
    | .ok text => (log_action w1 ip now "decode" "标准解码成功", .decoded text)
    | .error e => (log_action w1 ip now "decode_error" (excStr e), .err 400 (excStr e))

/-- The `/ocr` request end to end. -/
def ocr_image (ext : Caps) (w : World) (now : Nat) (ip : String) (image : ext.Img) :
    World × Resp ext.Img :=
  let hit := rlHit w.rl (ip, "/ocr") now
  let w1 : World := { w with rl := hit.2 }
  if hit.1 = false then (w1, .rateLimited)
  else
    match ocrCore ext image with
    | .ok text => (log_action w1 ip now "ocr" "OCR 提取成功", .ocrText text)
    | .error e => (log_action w1 ip now "ocr_error" (excStr e), .err 400 (excStr e))

/-- The `log_requests` middleware's audit effect for a request to a
path other than the three operation endpoints (those log their own
actions and are excluded here, lines 104-105). -/
def log_requests (w : World) (now : Nat) (ip path : String) : World :=
  if path = "/generate" ∨ path = "/decode" ∨ path = "/ocr" then w
  else log_action w ip now "access" ("访问 " ++ path)

/-- The `/stats` payload. -/
structure StatsSnapshot where
  generations : Nat
  decodings : Nat
  ocr_extractions : Nat
  unique_users : Nat
deriving DecidableEq

/-- `SELECT COUNT(*) FROM logs WHERE action = a`. -/
def countAction (recs : List AuditRecord) (a : String) : Nat :=
  (recs.filter (fun r => decide (r.action = a))).length

/-- `SELECT COUNT(DISTINCT ip) FROM logs`. -/
def uniqueIps (recs : List AuditRecord) : Nat :=
  (recs.map (fun r => r.ip)).dedup.length

/-- `get_stats`: aggregate counts by action plus the distinct-IP count;
the `none` argument models a store whose queries raise, in which case
the `except` branch returns all-zero counts. -/
def get_stats (store : Option (List AuditRecord)) : StatsSnapshot :=
  match store with
  | none => { generations := 0, decodings := 0, ocr_extractions := 0, unique_users := 0 }
  | some recs =>
    { generations := countAction recs "generate"
      decodings := countAction recs "decode"
      ocr_extractions := countAction recs "ocr"
      unique_users := uniqueIps recs }

/-- The header row `csv.writer` emits first in `export_logs`. -/
def headerRow : List String := ["ID", "IP", "时间戳", "操作", "详情"]

/-- Modelled from the spec: the header row §4.4 claims for the CSV
export, `ID, IP, Timestamp, Action, Details`, stated in the spec's
words for comparison with the code's `headerRow`. -/
def specHeaderRow : List String := ["ID", "IP", "Timestamp", "Action", "Details"]

/-- One data row per record, fields in table order. -/
def recordRow (r : AuditRecord) : List String :=
  [toString r.id, r.ip, toString r.timestamp, r.action, r.details]

/-- `export_logs`: `SELECT * FROM logs` (insertion order) written by
`csv.writer`, one row per record after the fixed header row. -/
def export_logs (recs : List AuditRecord) : List (List String) :=
  headerRow :: recs.map recordRow

/-- Minimal-quoting CSV field serialization as `csv.writer` performs it. -/
def csvField (s : String) : String :=
  if s.contains ',' || s.contains '"' || s.contains '\n' || s.contains '\r' then
    "\"" ++ (s.replace "\"" "\"\"") ++ "\""
  else s

def csvLine (fields : List String) : String :=
  String.intercalate "," (fields.map csvField) ++ "\r\n"

/-- The byte stream `/logs/export` returns. -/
def exportCsv (recs : List AuditRecord) : String :=
  String.join ((export_logs recs).map csvLine)

/-- A request to one of the three operation endpoints. -/
inductive OpReq (Img : Type) where
  | gen (ip : String) (text : String) (compress : Bool) (color bg : String) (logo : Option Img)
  | dec (ip : String) (image : Img)
  | ocr (ip : String) (image : Img)

def opAction {Img : Type} : OpReq Img → String
  | .gen .. => "generate"
  | .dec .. => "decode"
  | .ocr .. => "ocr"

def opIp {Img : Type} : OpReq Img → String
  | .gen ip .. => ip
  | .dec ip .. => ip
  | .ocr ip .. => ip

def runOp (ext : Caps) (w : World) (now : Nat) : OpReq ext.Img → World × Resp ext.Img
  | .gen ip text compress color bg logo => generate_qr ext w now ip text compress color bg logo
  | .dec ip image => decode_qr ext w now ip image
  | .ocr ip image => ocr_image ext w now ip image

/-- Process a timed sequence of operation requests, collecting responses. -/
def runTrace (ext : Caps) (w : World) : List (Nat × OpReq ext.Img) → World × List (Resp ext.Img)
  | [] => (w, [])
  | p :: ps =>
    let s := runOp ext w p.1 p.2
    let rest := runTrace ext s.1 ps
    (rest.1, s.2 :: rest.2)

/-- Three bytes encoding one character, little-endian base 256 (enough
since code points are below `2^21`).  This is the concrete lossless
text-to-bytes codec of the witness instances; it stands in for the
external UTF-8 codec, of which the development only uses the round-trip
and byte-range laws. -/
def char3 (c : Char) : List Nat := [c.toNat % 256, c.toNat / 256 % 256, c.toNat / 65536]

def utf8EncW (s : String) : List Nat := (s.data.map char3).flatten

def unchar3 : List Nat → Option (List Char)
  | [] => some []
  | b0 :: b1 :: b2 :: rest =>
    match unchar3 rest with
    | some cs => some (Char.ofNat (b0 + 256 * b1 + 65536 * b2) :: cs)
    | none => none
  | _ => none

def utf8DecW (bs : List Nat) : Option String :=
  match unchar3 bs with
  | some cs => some (String.mk cs)
  | none => none

theorem charToNat_lt (c : Char) : c.toNat < 1114112 := by
  have hval : c.toNat = c.val.toNat := rfl
  rcases c.valid with h | ⟨-, h⟩ <;> (rw [hval]; omega)

theorem unchar3_char3_append (c : Char) (rest : List Nat) :
    unchar3 (char3 c ++ rest) =
      match unchar3 rest with
      | some cs => some (c :: cs)
      | none => none := by
  have harith : c.toNat % 256 + 256 * (c.toNat / 256 % 256) + 65536 * (c.toNat / 65536)
      = c.toNat := by omega
  simp only [char3, List.cons_append, List.nil_append, unchar3, harith, Char.ofNat_toNat,
    List.append]

theorem unchar3_join (cs : List Char) : unchar3 ((cs.map char3).flatten) = some cs := by
  induction cs with
  | nil => rfl
  | cons c rest ih => rw [List.map_cons, List.flatten_cons, unchar3_char3_append, ih]

theorem utf8W_roundtrip (s : String) : utf8DecW (utf8EncW s) = some s := by
  unfold utf8DecW utf8EncW
  rw [unchar3_join]

theorem utf8W_bytes (s : String) : ∀ b ∈ utf8EncW s, b < 256 := by
  intro b hb
  unfold utf8EncW at hb
  rw [List.mem_flatten] at hb
  obtain ⟨l, hl, hbl⟩ := hb
  rw [List.mem_map] at hl
  obtain ⟨c, -, rfl⟩ := hl
  have := charToNat_lt c
  simp only [char3, List.mem_cons, List.not_mem_nil, or_false] at hbl
  rcases hbl with h | h | h <;> omega

/-- A concrete capability instance: images are the payload strings they
carry, rendering/detection is the identity channel, compression is the
identity (a valid deterministic lossless transform), and the capacity
test and OCR reader are parameters, so the branches of the code can be
exercised concretely. -/
def mkCaps (fits : ECLevel → String → Bool) (rt : String → Except String (List String)) :
    Caps where
  Img := String
  utf8Encode := utf8EncW
  utf8Decode := utf8DecW
  zlibCompress := fun bs => bs
  zlibDecompress := fun bs => some bs
  qrFits := fits
  render := fun d _ _ _ => d
  grayRender := fun d _ => d
  openGray := fun i => .ok i
  detect := fun i => i
  openRgb := fun i => .ok i
  readText := rt
  pasteLogo := fun _ i => .ok i
  utf8_roundtrip := utf8W_roundtrip
  utf8_bytes := utf8W_bytes
  zlib_roundtrip := fun _ _ => rfl
  zlib_bytes := fun _ h => h
  openGray_render := fun _ _ => rfl
  detect_grayRender := fun _ _ => rfl

deriving instance DecidableEq for Except

instance (fits : ECLevel → String → Bool) (rt : String → Except String (List String)) :
    DecidableEq (mkCaps fits rt).Img :=
  inferInstanceAs (DecidableEq String)

/-- Witness instance in which every payload fits at level `L`. -/
abbrev capsW : Caps := mkCaps (fun _ _ => true) (fun i => .ok [i])

/-- Witness instance in which payloads fit only at level `M`. -/
abbrev capsFitM : Caps := mkCaps (fun ec _ => decide (ec = ECLevel.M)) (fun i => .ok [i])

/-- Witness instance in which no payload fits at either level. -/
abbrev capsNoFit : Caps := mkCaps (fun _ _ => false) (fun i => .ok [i])

/-- Witness instance whose OCR reader raises, modelling an unexpected
internal fault in the external recognition library. -/
abbrev capsOcrFail : Caps := mkCaps (fun _ _ => true) (fun _ => .error "OCR 引擎异常")

theorem encodeData_false (ext : Caps) (text : String) : encodeData ext text false = text := by
  simp [encodeData]

theorem encodeData_true (ext : Caps) (text : String) :
    encodeData ext text true =
      b64encode (ext.zlibCompress (ext.utf8Encode text)) ++ "|compressed" := by
  simp [encodeData]

/-- Feeding a default-colour rendered symbol to the decode side reaches
the payload post-processing with the original payload. -/
theorem decodeCore_rendered (ext : Caps) (d : String) (ec : ECLevel) :
    decodeCore ext (ext.render d ec "#000000" "#FFFFFF") = decodePayload ext d := by
  simp only [decodeCore, ext.openGray_render, ext.detect_grayRender]

theorem generateCore_eq_of_fit (ext : Caps) (text : String) (compress : Bool) (color bg : String)
    (ec : ECLevel) (ht : text ≠ "") (hfit : ecFit ext (encodeData ext text compress) = some ec) :
    generateCore ext text compress color bg none =
      .ok (ext.render (encodeData ext text compress) ec color bg) := by
  unfold generateCore
  rw [if_neg ht, hfit]

theorem decodePayload_plain (ext : Caps) (d : String) (hne : d ≠ "")
    (hns : strEndsWith d "|compressed" = false) : decodePayload ext d = .ok d := by
  unfold decodePayload
  rw [if_neg hne]
  simp [hns]

theorem decodePayload_compressed (ext : Caps) (text : String) :
    decodePayload ext (encodeData ext text true) = .ok text := by
  have hbytes : ∀ b ∈ ext.zlibCompress (ext.utf8Encode text), b < 256 :=
    ext.zlib_bytes _ (ext.utf8_bytes text)
  rw [encodeData_true]
  unfold decodePayload
  rw [if_neg (append_ne_empty_of_ne _ "|compressed" (by decide))]
  simp only [strEndsWith_append, if_true, strDropRight_append11,
    b64decode_b64encode _ hbytes, ext.zlib_roundtrip _ (ext.utf8_bytes text),
    ext.utf8_roundtrip]

/-- C1 (counterexample): the claimed unconditional round-trip fails on
the non-empty, capacity-fitting text `"a|compressed"`: it is encoded
verbatim with `compress=false`, but the decode side strips the marker,
fails base64 decoding of `"a"`, and answers the decompression error
instead of the original text. -/
theorem c1_plain_roundtrip_counterexample :
    ("a|compressed" : String) ≠ "" ∧
    ecFit capsW "a|compressed" = some ECLevel.L ∧
    generateCore capsW "a|compressed" false "#000000" "#FFFFFF" none =
      .ok (capsW.render "a|compressed" ECLevel.L "#000000" "#FFFFFF") ∧
    decodeCore capsW (capsW.render "a|compressed" ECLevel.L "#000000" "#FFFFFF") =
      .error (.http 400 decompressMsg) ∧
    decodeCore capsW (capsW.render "a|compressed" ECLevel.L "#000000" "#FFFFFF") ≠
      .ok "a|compressed" := by
  refine ⟨by decide, by decide, by decide, by decide, by decide⟩

/-- C1 (amended): for every non-empty text that fits a single
error-correction level and does not itself end with the literal marker
`"|compressed"`, decoding the image produced by
`encode(text, compress=false, default colors, no logo)` returns exactly
the original text. -/
theorem c1_plain_roundtrip_amended (ext : Caps) (text : String) (ec : ECLevel)
    (ht : text ≠ "") (hfit : ecFit ext text = some ec)
    (hns : strEndsWith text "|compressed" = false) :
    generateCore ext text false "#000000" "#FFFFFF" none =
      .ok (ext.render text ec "#000000" "#FFFFFF") ∧
    decodeCore ext (ext.render text ec "#000000" "#FFFFFF") = .ok text := by
  constructor
  · have h := generateCore_eq_of_fit ext text false "#000000" "#FFFFFF" ec ht
      (by rw [encodeData_false]; exact hfit)
    rw [encodeData_false] at h
    exact h
  · rw [decodeCore_rendered, decodePayload_plain ext text ht hns]

theorem c1_plain_roundtrip_amended_witness :
    ("hello" : String) ≠ "" ∧ ecFit capsW "hello" = some ECLevel.L ∧
    strEndsWith "hello" "|compressed" = false ∧
    (generateCore capsW "hello" false "#000000" "#FFFFFF" none =
        .ok (capsW.render "hello" ECLevel.L "#000000" "#FFFFFF") ∧
      decodeCore capsW (capsW.render "hello" ECLevel.L "#000000" "#FFFFFF") = .ok "hello") :=
  ⟨by decide, by decide, by decide,
    c1_plain_roundtrip_amended capsW "hello" ECLevel.L (by decide) (by decide) (by decide)⟩

/-- C2: with `compress=true` the encoded payload is exactly
`base64(zlib(utf8(text)))` followed by the literal `"|compressed"`
marker (so the compressed path is visibly taken), and decoding the
resulting image strips the marker, base64-decodes, decompresses and
returns exactly the original text. -/
theorem c2_compressed_roundtrip (ext : Caps) (text : String) (ec : ECLevel)
    (ht : text ≠ "") (hfit : ecFit ext (encodeData ext text true) = some ec) :
    encodeData ext text true =
      b64encode (ext.zlibCompress (ext.utf8Encode text)) ++ "|compressed" ∧
    strEndsWith (encodeData ext text true) "|compressed" = true ∧
    generateCore ext text true "#000000" "#FFFFFF" none =
      .ok (ext.render (encodeData ext text true) ec "#000000" "#FFFFFF") ∧
    decodeCore ext (ext.render (encodeData ext text true) ec "#000000" "#FFFFFF") =
      .ok text := by
  refine ⟨encodeData_true ext text, ?_,
    generateCore_eq_of_fit ext text true "#000000" "#FFFFFF" ec ht hfit, ?_⟩
  · rw [encodeData_true]
    exact strEndsWith_append _ _
  · rw [decodeCore_rendered, decodePayload_compressed ext text]

theorem c2_compressed_roundtrip_witness :
    ("hi" : String) ≠ "" ∧ ecFit capsW (encodeData capsW "hi" true) = some ECLevel.L ∧
    (encodeData capsW "hi" true =
        b64encode (capsW.zlibCompress (capsW.utf8Encode "hi")) ++ "|compressed" ∧
      strEndsWith (encodeData capsW "hi" true) "|compressed" = true ∧
      generateCore capsW "hi" true "#000000" "#FFFFFF" none =
        .ok (capsW.render (encodeData capsW "hi" true) ECLevel.L "#000000" "#FFFFFF") ∧
      decodeCore capsW (capsW.render (encodeData capsW "hi" true) ECLevel.L "#000000" "#FFFFFF") =
        .ok "hi") :=
  ⟨by decide, by decide, c2_compressed_roundtrip capsW "hi" ECLevel.L (by decide) (by decide)⟩

/-- C3: for every non-empty input the encoder first requests level `L`
(the lowest error correction, maximal capacity); on overflow it retries
exactly once at level `M`; if that also overflows it fails with the
capacity error — an error value distinct from the validation failure —
returned as a value, never a crash; empty text yields the validation
error instead. -/
theorem c3_ec_retry_capacity (ext : Caps) (text : String) (compress : Bool) (color bg : String)
    (logo : Option ext.Img) (ht : text ≠ "") :
    (ext.qrFits .L (encodeData ext text compress) = true →
      generateCore ext text compress color bg none =
        .ok (ext.render (encodeData ext text compress) .L color bg)) ∧
    (ext.qrFits .L (encodeData ext text compress) = false →
      ext.qrFits .M (encodeData ext text compress) = true →
      generateCore ext text compress color bg none =
        .ok (ext.render (encodeData ext text compress) .M color bg)) ∧
    (ext.qrFits .L (encodeData ext text compress) = false →
      ext.qrFits .M (encodeData ext text compress) = false →
      generateCore ext text compress color bg logo = .error (.http 400 capacityMsg)) ∧
    Exc.http 400 capacityMsg ≠ Exc.http 400 validationMsg ∧
    generateCore ext "" compress color bg logo = .error (.http 400 validationMsg) := by
  refine ⟨?_, ?_, ?_, by decide, by simp [generateCore]⟩
  · intro hL
    exact generateCore_eq_of_fit ext text compress color bg .L ht (by simp [ecFit, hL])
  · intro hL hM
    exact generateCore_eq_of_fit ext text compress color bg .M ht (by simp [ecFit, hL, hM])
  · intro hL hM
    unfold generateCore
    rw [if_neg ht]
    simp [ecFit, hL, hM]

theorem c3_ec_retry_capacity_witness :
    generateCore capsW "ab" false "#000000" "#FFFFFF" none =
      .ok (capsW.render "ab" ECLevel.L "#000000" "#FFFFFF") ∧
    generateCore capsFitM "ab" false "#000000" "#FFFFFF" none =
      .ok (capsFitM.render "ab" ECLevel.M "#000000" "#FFFFFF") ∧
    generateCore capsNoFit "ab" false "#000000" "#FFFFFF" none =
      .error (.http 400 capacityMsg) ∧
    generateCore capsW "" false "#000000" "#FFFFFF" none =
      .error (.http 400 validationMsg) :=
  ⟨(c3_ec_retry_capacity capsW "ab" false "#000000" "#FFFFFF" none (by decide)).1 (by decide),
   (c3_ec_retry_capacity capsFitM "ab" false "#000000" "#FFFFFF" none
      (by decide)).2.1 (by decide) (by decide),
   (c3_ec_retry_capacity capsNoFit "ab" false "#000000" "#FFFFFF" none
      (by decide)).2.2.1 (by decide) (by decide),
   (c3_ec_retry_capacity capsW "x" false "#000000" "#FFFFFF" none (by decide)).2.2.2.2⟩

/-- C9 (counterexample): decode can return a text that ends with
`"|compressed"` — compressing a text that itself ends with the marker
round-trips back to it, so the final conjunct of the claim is false. -/
theorem c9_strip_counterexample :
    generateCore capsW "x|compressed" true "#000000" "#FFFFFF" none =
      .ok (capsW.render (encodeData capsW "x|compressed" true) ECLevel.L "#000000" "#FFFFFF") ∧
    decodeCore capsW
        (capsW.render (encodeData capsW "x|compressed" true) ECLevel.L "#000000" "#FFFFFF") =
      .ok "x|compressed" ∧
    strEndsWith "x|compressed" "|compressed" = true := by
  refine ⟨generateCore_eq_of_fit capsW "x|compressed" true "#000000" "#FFFFFF" ECLevel.L
    (by decide) (by decide), ?_, by decide⟩
  rw [decodeCore_rendered]
  exact decodePayload_compressed capsW "x|compressed"

/-- C9 (amended): whenever the decoded raw payload ends with the
11-character marker `"|compressed"`, decode unconditionally strips the
marker and attempts base64 decoding plus decompression — whether or not
the payload was produced by the compress path — returning the recovered
text on success and the decompression error on any failure; but decode
does not guarantee the result is free of the marker: the compressed
round-trip of a marker-ending text returns that marker-ending text. -/
theorem c9_strip_amended (ext : Caps) (data text : String)
    (hne : data ≠ "") (hend : strEndsWith data "|compressed" = true)
    (htend : strEndsWith text "|compressed" = true) :
    (b64decode (strDropRight data 11) = none →
      decodePayload ext data = .error (.http 400 decompressMsg)) ∧
    (∀ bs, b64decode (strDropRight data 11) = some bs → ext.zlibDecompress bs = none →
      decodePayload ext data = .error (.http 400 decompressMsg)) ∧
    (∀ bs bs2 t, b64decode (strDropRight data 11) = some bs →
      ext.zlibDecompress bs = some bs2 → ext.utf8Decode bs2 = some t →
      decodePayload ext data = .ok t) ∧
    (decodePayload ext (encodeData ext text true) = .ok text ∧
      strEndsWith text "|compressed" = true) := by
  refine ⟨?_, ?_, ?_, decodePayload_compressed ext text, htend⟩
  · intro hb
    unfold decodePayload
    rw [if_neg hne]
    simp [hend, hb]
  · intro bs hb hz
    unfold decodePayload
    rw [if_neg hne]
    simp [hend, hb, hz]
  · intro bs bs2 t hb hz hu
    unfold decodePayload
    rw [if_neg hne]
    simp [hend, hb, hz, hu]

theorem c9_strip_amended_witness :
    (b64decode (strDropRight "a|compressed" 11) = none →
      decodePayload capsW "a|compressed" = .error (.http 400 decompressMsg)) ∧
    (∀ bs, b64decode (strDropRight "a|compressed" 11) = some bs →
      capsW.zlibDecompress bs = none →
      decodePayload capsW "a|compressed" = .error (.http 400 decompressMsg)) ∧
    (∀ bs bs2 t, b64decode (strDropRight "a|compressed" 11) = some bs →
      capsW.zlibDecompress bs = some bs2 → capsW.utf8Decode bs2 = some t →
      decodePayload capsW "a|compressed" = .ok t) ∧
    (decodePayload capsW (encodeData capsW "y|compressed" true) = .ok "y|compressed" ∧
      strEndsWith "y|compressed" "|compressed" = true) :=
  c9_strip_amended capsW "a|compressed" "y|compressed"
    (by decide) (by decide) (by decide)

/-- C6 (counterexample): an unexpected internal fault — the external
OCR engine raising — is returned by `/ocr` as a 400 response, not a
5xx-equivalent one, because the handler's catch-all maps every caught
exception to `HTTPException(status_code=400, ...)`. -/
theorem c6_status_counterexample :
    (ocr_image capsOcrFail emptyWorld 0 "1.2.3.4" "img").2 = .err 400 "OCR 引擎异常" ∧
    respStatus ((ocr_image capsOcrFail emptyWorld 0 "1.2.3.4" "img").2) = 400 ∧
    ¬ 500 ≤ respStatus ((ocr_image capsOcrFail emptyWorld 0 "1.2.3.4" "img").2) := by
  refine ⟨by decide, by decide, by decide⟩

/-- C6 (amended): for the three operation endpoints, every admitted
request that fails — validation, capacity, logo, not-found and
decompression conditions, and unexpected internal faults alike —
produces a 400 (4xx-equivalent) response carrying the exception's
human-readable message; these endpoints never produce a 5xx response. -/
theorem c6_errors_amended (ext : Caps) (w : World) (now : Nat) (ip text : String)
    (compress : Bool) (color bg : String) (logo : Option ext.Img) (dimg oimg : ext.Img) :
    (∀ e, (rlHit w.rl (ip, "/generate") now).1 = true →
      generateCore ext text compress color bg logo = .error e →
      (generate_qr ext w now ip text compress color bg logo).2 = .err 400 (excStr e)) ∧
    (∀ e, (rlHit w.rl (ip, "/decode") now).1 = true →
      decodeCore ext dimg = .error e →
      (decode_qr ext w now ip dimg).2 = .err 400 (excStr e)) ∧
    (∀ e, (rlHit w.rl (ip, "/ocr") now).1 = true →
      ocrCore ext oimg = .error e →
      (ocr_image ext w now ip oimg).2 = .err 400 (excStr e)) := by
  refine ⟨?_, ?_, ?_⟩ <;> intro e hhit herr
  · simp [generate_qr, hhit, herr]
  · simp [decode_qr, hhit, herr]
  · simp [ocr_image, hhit, herr]

theorem c6_errors_amended_witness :
    (ocr_image capsOcrFail emptyWorld 0 "1.2.3.4" "img").2 =
      .err 400 (excStr (Exc.other "OCR 引擎异常")) :=
  (c6_errors_amended capsOcrFail emptyWorld 0 "1.2.3.4" "t" false "#000000" "#FFFFFF"
    none "d" "img").2.2 (Exc.other "OCR 引擎异常") (by decide) (by decide)

theorem rlHit_none (st : RLState) (k : RLKey) (now : Nat) (h : st k = none) :
    rlHit st k now =
      (true, fun q => if q = k then some { count := 1, windowStart := now } else st q) := by
  simp [rlHit, h]

theorem rlHit_inc (st : RLState) (k : RLKey) (now : Nat) (e : RLEntry)
    (h : st k = some e) (hw : ¬ e.windowStart + 60 ≤ now) (hc : e.count < 5) :
    rlHit st k now =
      (true, fun q =>
        if q = k then some { count := e.count + 1, windowStart := e.windowStart } else st q) := by
  simp [rlHit, h, hw, hc]

theorem rlHit_reject (st : RLState) (k : RLKey) (now : Nat) (e : RLEntry)
    (h : st k = some e) (hw : ¬ e.windowStart + 60 ≤ now) (hc : ¬ e.count < 5) :
    rlHit st k now = (false, st) := by
  simp [rlHit, h, hw, hc]

/-- An admitted `/generate` request is processed: the limiter state
advances, exactly one audit row is appended, and the response is never
the 429 rejection. -/
theorem generate_qr_allowed (ext : Caps) (w : World) (now : Nat) (ip text : String)
    (compress : Bool) (color bg : String) (logo : Option ext.Img)
    (h : (rlHit w.rl (ip, "/generate") now).1 = true) :
    (generate_qr ext w now ip text compress color bg logo).1.rl
        = (rlHit w.rl (ip, "/generate") now).2 ∧
    (generate_qr ext w now ip text compress color bg logo).1.audit.length
        = w.audit.length + 1 ∧
    (generate_qr ext w now ip text compress color bg logo).2 ≠ Resp.rateLimited := by
  cases hg : generateCore ext text compress color bg logo <;>
    simp [generate_qr, h, hg, log_action]

/-- A rejected `/generate` request changes nothing and answers 429. -/
theorem generate_qr_rejected (ext : Caps) (w : World) (now : Nat) (ip text : String)
    (compress : Bool) (color bg : String) (logo : Option ext.Img)
    (h : rlHit w.rl (ip, "/generate") now = (false, w.rl)) :
    generate_qr ext w now ip text compress color bg logo = (w, Resp.rateLimited) := by
  have hw : ({ w with rl := w.rl } : World) = w := rfl
  simp [generate_qr, h, hw]

/-- C4: six `/generate` requests from one IP inside a 60-second window,
starting from a state with no window for that key: the first five are
admitted (processed, never the 429 rejection, one audit row each), the
sixth is rejected with the 429-equivalent rate-limited response before
the codec is invoked, writes no audit record of any kind, and the
limiter state of every other `(IP, endpoint)` key is untouched. -/
theorem c4_rate_limit (ext : Caps) (w : World) (ip text : String) (compress : Bool)
    (color bg : String) (logo : Option ext.Img) (t1 t2 t3 t4 t5 t6 : Nat)
    (s1 s2 s3 s4 s5 s6 : World × Resp ext.Img)
    (hs1 : s1 = generate_qr ext w t1 ip text compress color bg logo)
    (hs2 : s2 = generate_qr ext s1.1 t2 ip text compress color bg logo)
    (hs3 : s3 = generate_qr ext s2.1 t3 ip text compress color bg logo)
    (hs4 : s4 = generate_qr ext s3.1 t4 ip text compress color bg logo)
    (hs5 : s5 = generate_qr ext s4.1 t5 ip text compress color bg logo)
    (hs6 : s6 = generate_qr ext s5.1 t6 ip text compress color bg logo)
    (hfresh : w.rl (ip, "/generate") = none)
    (h12 : t1 ≤ t2) (h23 : t2 ≤ t3) (h34 : t3 ≤ t4) (h45 : t4 ≤ t5) (h56 : t5 ≤ t6)
    (hwin : t6 < t1 + 60) :
    (s1.2 ≠ Resp.rateLimited ∧ s2.2 ≠ Resp.rateLimited ∧ s3.2 ≠ Resp.rateLimited ∧
      s4.2 ≠ Resp.rateLimited ∧ s5.2 ≠ Resp.rateLimited) ∧
    s5.1.audit.length = w.audit.length + 5 ∧
    s6.2 = Resp.rateLimited ∧
    s6.1.audit = s5.1.audit ∧
    (∀ q, q ≠ (ip, "/generate") → s6.1.rl q = w.rl q) := by
  subst hs1 hs2 hs3 hs4 hs5 hs6
  have hrl1 := rlHit_none w.rl (ip, "/generate") t1 hfresh
  obtain ⟨h1rl, h1len, h1ne⟩ :=
    generate_qr_allowed ext w t1 ip text compress color bg logo (by rw [hrl1])
  rw [hrl1] at h1rl
  have h1k : (generate_qr ext w t1 ip text compress color bg logo).1.rl (ip, "/generate")
      = some { count := 1, windowStart := t1 } := by rw [h1rl]; simp
  have hrl2 := rlHit_inc _ (ip, "/generate") t2 { count := 1, windowStart := t1 }
    h1k (by simp only []; omega) (by simp only []; omega)
  obtain ⟨h2rl, h2len, h2ne⟩ :=
    generate_qr_allowed ext _ t2 ip text compress color bg logo (by rw [hrl2])
  rw [hrl2] at h2rl
  have h2k : (generate_qr ext
        (generate_qr ext w t1 ip text compress color bg logo).1
        t2 ip text compress color bg logo).1.rl (ip, "/generate")
      = some { count := 2, windowStart := t1 } := by rw [h2rl]; simp
  have hrl3 := rlHit_inc _ (ip, "/generate") t3 { count := 2, windowStart := t1 }
    h2k (by simp only []; omega) (by simp only []; omega)
  obtain ⟨h3rl, h3len, h3ne⟩ :=
    generate_qr_allowed ext _ t3 ip text compress color bg logo (by rw [hrl3])
  rw [hrl3] at h3rl
  have h3k : (generate_qr ext (generate_qr ext
        (generate_qr ext w t1 ip text compress color bg logo).1
        t2 ip text compress color bg logo).1 t3 ip text compress color bg logo).1.rl
        (ip, "/generate")
      = some { count := 3, windowStart := t1 } := by rw [h3rl]; simp
  have hrl4 := rlHit_inc _ (ip, "/generate") t4 { count := 3, windowStart := t1 }
    h3k (by simp only []; omega) (by simp only []; omega)
  obtain ⟨h4rl, h4len, h4ne⟩ :=
    generate_qr_allowed ext _ t4 ip text compress color bg logo (by rw [hrl4])
  rw [hrl4] at h4rl
  have h4k : (generate_qr ext (generate_qr ext (generate_qr ext
        (generate_qr ext w t1 ip text compress color bg logo).1
        t2 ip text compress color bg logo).1 t3 ip text compress color bg logo).1
        t4 ip text compress color bg logo).1.rl (ip, "/generate")
      = some { count := 4, windowStart := t1 } := by rw [h4rl]; simp
  have hrl5 := rlHit_inc _ (ip, "/generate") t5 { count := 4, windowStart := t1 }
    h4k (by simp only []; omega) (by simp only []; omega)
  obtain ⟨h5rl, h5len, h5ne⟩ :=
    generate_qr_allowed ext _ t5 ip text compress color bg logo (by rw [hrl5])
  rw [hrl5] at h5rl
  have h5k : (generate_qr ext (generate_qr ext (generate_qr ext (generate_qr ext
        (generate_qr ext w t1 ip text compress color bg logo).1
        t2 ip text compress color bg logo).1 t3 ip text compress color bg logo).1
        t4 ip text compress color bg logo).1 t5 ip text compress color bg logo).1.rl
        (ip, "/generate")
      = some { count := 5, windowStart := t1 } := by rw [h5rl]; simp
  have hrl6 := rlHit_reject _ (ip, "/generate") t6 { count := 5, windowStart := t1 }
    h5k (by simp only []; omega) (by simp only []; omega)
  have h6 := generate_qr_rejected ext _ t6 ip text compress color bg logo hrl6
  refine ⟨⟨h1ne, h2ne, h3ne, h4ne, h5ne⟩, ?_, ?_, ?_, ?_⟩
  · rw [h5len, h4len, h3len, h2len, h1len]
  · rw [h6]
  · rw [h6]
  · intro q hq
    rw [h6]
    rw [h5rl, h4rl, h3rl, h2rl, h1rl]
    simp [hq]

theorem c4_rate_limit_witness :
    (let s1 := generate_qr capsW emptyWorld 0 "1.2.3.4" "hi" false "#000000" "#FFFFFF" none
     let s2 := generate_qr capsW s1.1 10 "1.2.3.4" "hi" false "#000000" "#FFFFFF" none
     let s3 := generate_qr capsW s2.1 20 "1.2.3.4" "hi" false "#000000" "#FFFFFF" none
     let s4 := generate_qr capsW s3.1 30 "1.2.3.4" "hi" false "#000000" "#FFFFFF" none
     let s5 := generate_qr capsW s4.1 40 "1.2.3.4" "hi" false "#000000" "#FFFFFF" none
     let s6 := generate_qr capsW s5.1 50 "1.2.3.4" "hi" false "#000000" "#FFFFFF" none
     s5.1.audit.length = 5 ∧ s6.2 = Resp.rateLimited ∧ s6.1.audit = s5.1.audit) := by
  have h := c4_rate_limit capsW emptyWorld "1.2.3.4" "hi" false "#000000" "#FFFFFF" none
    0 10 20 30 40 50 _ _ _ _ _ _ rfl rfl rfl rfl rfl rfl rfl
    (by omega) (by omega) (by omega) (by omega) (by omega) (by omega)
  exact ⟨h.2.1, h.2.2.1, h.2.2.2.1⟩

/-- One audit row appended by `log_action`, with the next id. -/
theorem log_action_audit (w : World) (ip : String) (now : Nat) (action details : String) :
    (log_action w ip now action details).audit =
      w.audit ++
        [{ id := w.nextId, ip := ip, timestamp := now, action := action, details := details }] :=
  rfl

/-- C5: every request admitted to one of the three operation endpoints
writes exactly one terminal audit record — the success action on the
success branch, the matching `_error` action on any failure branch,
never an `access` row; the middleware writes an `access` row exactly
for the paths other than `/generate`, `/decode` and `/ocr`. -/
theorem c5_one_terminal_record (ext : Caps) (w : World) (now : Nat) (ip text : String)
    (compress : Bool) (color bg : String) (logo : Option ext.Img) (dimg oimg : ext.Img)
    (path : String) :
    ((rlHit w.rl (ip, "/generate") now).1 = true →
      ∃ rec, (generate_qr ext w now ip text compress color bg logo).1.audit
          = w.audit ++ [rec] ∧
        rec.action ≠ "access" ∧
        (∀ i, generateCore ext text compress color bg logo = .ok i →
          rec.action = "generate") ∧
        (∀ e, generateCore ext text compress color bg logo = .error e →
          rec.action = "generate_error")) ∧
    ((rlHit w.rl (ip, "/decode") now).1 = true →
      ∃ rec, (decode_qr ext w now ip dimg).1.audit = w.audit ++ [rec] ∧
        rec.action ≠ "access" ∧
        (∀ t, decodeCore ext dimg = .ok t → rec.action = "decode") ∧
        (∀ e, decodeCore ext dimg = .error e → rec.action = "decode_error")) ∧
    ((rlHit w.rl (ip, "/ocr") now).1 = true →
      ∃ rec, (ocr_image ext w now ip oimg).1.audit = w.audit ++ [rec] ∧
        rec.action ≠ "access" ∧
        (∀ t, ocrCore ext oimg = .ok t → rec.action = "ocr") ∧
        (∀ e, ocrCore ext oimg = .error e → rec.action = "ocr_error")) ∧
    (path ≠ "/generate" → path ≠ "/decode" → path ≠ "/ocr" →
      (log_requests w now ip path).audit =
        w.audit ++ [{ id := w.nextId, ip := ip, timestamp := now, action := "access",
                      details := "访问 " ++ path }]) ∧
    (path = "/generate" ∨ path = "/decode" ∨ path = "/ocr" →
      (log_requests w now ip path).audit = w.audit) := by
  refine ⟨?_, ?_, ?_, ?_, ?_⟩
  · intro h
    cases hg : generateCore ext text compress color bg logo with
    | ok i =>
        refine ⟨⟨w.nextId, ip, now, "generate", genDetails text compress⟩,
          by simp [generate_qr, h, hg, log_action],
          by show ("generate" : String) ≠ "access"; decide, ?_, ?_⟩
        · intro j hj
          rfl
        · intro e he
          exact Except.noConfusion he
    | error e =>
        refine ⟨⟨w.nextId, ip, now, "generate_error", excStr e⟩,
          by simp [generate_qr, h, hg, log_action],
          by show ("generate_error" : String) ≠ "access"; decide, ?_, ?_⟩
        · intro j hj
          exact Except.noConfusion hj
        · intro e2 he2
          rfl
  · intro h
    cases hg : decodeCore ext dimg with
    | ok t =>
        refine ⟨⟨w.nextId, ip, now, "decode", "标准解码成功"⟩,
          by simp [decode_qr, h, hg, log_action],
          by show ("decode" : String) ≠ "access"; decide, ?_, ?_⟩
        · intro j hj
          rfl
        · intro e he
          exact Except.noConfusion he
    | error e =>
        refine ⟨⟨w.nextId, ip, now, "decode_error", excStr e⟩,
          by simp [decode_qr, h, hg, log_action],
          by show ("decode_error" : String) ≠ "access"; decide, ?_, ?_⟩
        · intro j hj
          exact Except.noConfusion hj
        · intro e2 he2
          rfl
  · intro h
    cases hg : ocrCore ext oimg with
    | ok t =>
        refine ⟨⟨w.nextId, ip, now, "ocr", "OCR 提取成功"⟩,
          by simp [ocr_image, h, hg, log_action],
          by show ("ocr" : String) ≠ "access"; decide, ?_, ?_⟩
        · intro j hj
          rfl
        · intro e he
          exact Except.noConfusion he
    | error e =>
        refine ⟨⟨w.nextId, ip, now, "ocr_error", excStr e⟩,
          by simp [ocr_image, h, hg, log_action],
          by show ("ocr_error" : String) ≠ "access"; decide, ?_, ?_⟩
        · intro j hj
          exact Except.noConfusion hj
        · intro e2 he2
          rfl
  · intro hp1 hp2 hp3
    simp [log_requests, hp1, hp2, hp3, log_action]
  · intro hp
    simp [log_requests, hp]

theorem c5_one_terminal_record_witness :
    (∃ rec, (generate_qr capsW emptyWorld 0 "1.2.3.4" "hi" false "#000000" "#FFFFFF"
          none).1.audit = emptyWorld.audit ++ [rec] ∧
      rec.action ≠ "access" ∧
      (∀ i, generateCore capsW "hi" false "#000000" "#FFFFFF" none = .ok i →
        rec.action = "generate") ∧
      (∀ e, generateCore capsW "hi" false "#000000" "#FFFFFF" none = .error e →
        rec.action = "generate_error")) ∧
    (log_requests emptyWorld 0 "1.2.3.4" "/stats").audit =
      emptyWorld.audit ++ [{ id := 1, ip := "1.2.3.4", timestamp := 0, action := "access",
                             details := "访问 /stats" }] :=
  ⟨(c5_one_terminal_record capsW emptyWorld 0 "1.2.3.4" "hi" false "#000000" "#FFFFFF"
      none "d" "o" "/stats").1 (by decide),
   (c5_one_terminal_record capsW emptyWorld 0 "1.2.3.4" "hi" false "#000000" "#FFFFFF"
      none "d" "o" "/stats").2.2.2.1 (by decide) (by decide) (by decide)⟩

/-- Observable identity of an audit row for counting purposes. -/
def recPair (r : AuditRecord) : String × String := (r.action, r.ip)

theorem generate_qr_ok_pairs (ext : Caps) (w : World) (now : Nat) (ip text : String)
    (compress : Bool) (color bg : String) (logo : Option ext.Img)
    (hok : respOk (generate_qr ext w now ip text compress color bg logo).2 = true) :
    (generate_qr ext w now ip text compress color bg logo).1.audit.map recPair
      = w.audit.map recPair ++ [("generate", ip)] := by
  cases hb : (rlHit w.rl (ip, "/generate") now).1 with
  | false => simp [generate_qr, hb, respOk] at hok
  | true =>
    cases hg : generateCore ext text compress color bg logo with
    | ok i => simp [generate_qr, hb, hg, log_action, recPair]
    | error e => simp [generate_qr, hb, hg, respOk] at hok

theorem decode_qr_ok_pairs (ext : Caps) (w : World) (now : Nat) (ip : String)
    (image : ext.Img)
    (hok : respOk (decode_qr ext w now ip image).2 = true) :
    (decode_qr ext w now ip image).1.audit.map recPair
      = w.audit.map recPair ++ [("decode", ip)] := by
  cases hb : (rlHit w.rl (ip, "/decode") now).1 with
  | false => simp [decode_qr, hb, respOk] at hok
  | true =>
    cases hg : decodeCore ext image with
    | ok t => simp [decode_qr, hb, hg, log_action, recPair]
    | error e => simp [decode_qr, hb, hg, respOk] at hok

theorem ocr_image_ok_pairs (ext : Caps) (w : World) (now : Nat) (ip : String)
    (image : ext.Img)
    (hok : respOk (ocr_image ext w now ip image).2 = true) :
    (ocr_image ext w now ip image).1.audit.map recPair
      = w.audit.map recPair ++ [("ocr", ip)] := by
  cases hb : (rlHit w.rl (ip, "/ocr") now).1 with
  | false => simp [ocr_image, hb, respOk] at hok
  | true =>
    cases hg : ocrCore ext image with
    | ok t => simp [ocr_image, hb, hg, log_action, recPair]
    | error e => simp [ocr_image, hb, hg, respOk] at hok

theorem runOp_ok_pairs (ext : Caps) (w : World) (now : Nat) (req : OpReq ext.Img)
    (hok : respOk (runOp ext w now req).2 = true) :
    (runOp ext w now req).1.audit.map recPair
      = w.audit.map recPair ++ [(opAction req, opIp req)] := by
  cases req with
  | gen ip text compress color bg logo =>
      exact generate_qr_ok_pairs ext w now ip text compress color bg logo hok
  | dec ip image => exact decode_qr_ok_pairs ext w now ip image hok
  | ocr ip image => exact ocr_image_ok_pairs ext w now ip image hok

/-- A trace whose responses are all successful appends exactly its own
`(action, ip)` pairs to the audit trail, in order. -/
theorem runTrace_pairs (ext : Caps) (tr : List (Nat × OpReq ext.Img)) (w : World)
    (hok : ∀ r ∈ (runTrace ext w tr).2, respOk r = true) :
    (runTrace ext w tr).1.audit.map recPair
      = w.audit.map recPair ++ tr.map (fun p => (opAction p.2, opIp p.2)) := by
  induction tr generalizing w with
  | nil => simp [runTrace]
  | cons p ps ih =>
    have hok1 : respOk (runOp ext w p.1 p.2).2 = true := hok _ (by simp [runTrace])
    have hokrest : ∀ r ∈ (runTrace ext (runOp ext w p.1 p.2).1 ps).2, respOk r = true :=
      fun r hr => hok r (by simp [runTrace]; exact Or.inr hr)
    have h1 := runOp_ok_pairs ext w p.1 p.2 hok1
    have h2 := ih (runOp ext w p.1 p.2).1 hokrest
    simp only [runTrace]
    rw [h2, h1]
    simp

theorem countAction_pairs (recs : List AuditRecord) (a : String) :
    countAction recs a = ((recs.map recPair).filter (fun q => decide (q.1 = a))).length := by
  induction recs with
  | nil => rfl
  | cons r l ih =>
    simp only [countAction, List.filter, List.map] at ih ⊢
    cases hr : decide (r.action = a) <;> simp [recPair, hr, ih]

theorem uniqueIps_pairs (recs : List AuditRecord) :
    uniqueIps recs = ((recs.map recPair).map Prod.snd).dedup.length := by
  unfold uniqueIps
  rw [List.map_map]
  rfl

theorem filter_length_map {α β : Type} (f : α → β) (p : β → Bool) (l : List α) :
    ((l.map f).filter p).length = (l.filter (fun x => p (f x))).length := by
  induction l with
  | nil => rfl
  | cons x l ih =>
    cases hp : p (f x) <;> simp [List.filter, hp, ih]

/-- C8: a store reached from the empty one by a trace of successful
generations, decodes and OCR calls (and no other requests) snapshots to
exactly the trace's per-action counts and its number of distinct client
IPs; the empty store and a failing store both snapshot to all zeros. -/
theorem c8_stats (ext : Caps) (tr : List (Nat × OpReq ext.Img)) (N M K D : Nat)
    (hok : ∀ r ∈ (runTrace ext emptyWorld tr).2, respOk r = true)
    (hN : (tr.filter (fun p => decide (opAction p.2 = "generate"))).length = N)
    (hM : (tr.filter (fun p => decide (opAction p.2 = "decode"))).length = M)
    (hK : (tr.filter (fun p => decide (opAction p.2 = "ocr"))).length = K)
    (hD : (tr.map (fun p => opIp p.2)).dedup.length = D) :
    get_stats (some (runTrace ext emptyWorld tr).1.audit) =
      { generations := N, decodings := M, ocr_extractions := K, unique_users := D } ∧
    get_stats (some []) =
      { generations := 0, decodings := 0, ocr_extractions := 0, unique_users := 0 } ∧
    get_stats none =
      { generations := 0, decodings := 0, ocr_extractions := 0, unique_users := 0 } := by
  refine ⟨?_, rfl, rfl⟩
  have hpairs := runTrace_pairs ext tr emptyWorld hok
  rw [show emptyWorld.audit.map recPair = [] from rfl, List.nil_append] at hpairs
  have hcount : ∀ a : String,
      countAction (runTrace ext emptyWorld tr).1.audit a
        = (tr.filter (fun p => decide (opAction p.2 = a))).length := by
    intro a
    rw [countAction_pairs, hpairs, filter_length_map]
  have huniq : uniqueIps (runTrace ext emptyWorld tr).1.audit
      = (tr.map (fun p => opIp p.2)).dedup.length := by
    rw [uniqueIps_pairs, hpairs, List.map_map]
    rfl
  show ({ generations := countAction (runTrace ext emptyWorld tr).1.audit "generate"
          decodings := countAction (runTrace ext emptyWorld tr).1.audit "decode"
          ocr_extractions := countAction (runTrace ext emptyWorld tr).1.audit "ocr"
          unique_users := uniqueIps (runTrace ext emptyWorld tr).1.audit } : StatsSnapshot)
      = { generations := N, decodings := M, ocr_extractions := K, unique_users := D }
  rw [hcount, hcount, hcount, huniq, hN, hM, hK, hD]

theorem c8_stats_witness :
    get_stats (some (runTrace capsW emptyWorld
        [(0, .gen "1.1.1.1" "hi" false "#000000" "#FFFFFF" none),
         (0, .dec "2.2.2.2" "img"),
         (0, .ocr "1.1.1.1" "pic")]).1.audit) =
      { generations := 1, decodings := 1, ocr_extractions := 1, unique_users := 2 } :=
  (c8_stats capsW
    [(0, .gen "1.1.1.1" "hi" false "#000000" "#FFFFFF" none),
     (0, .dec "2.2.2.2" "img"),
     (0, .ocr "1.1.1.1" "pic")] 1 1 1 2
    (by decide) (by decide) (by decide) (by decide) (by decide)).1

theorem countAction_append (l1 l2 : List AuditRecord) (a : String) :
    countAction (l1 ++ l2) a = countAction l1 a + countAction l2 a := by
  simp [countAction, List.filter_append]

theorem dedup_length_append_fresh {α : Type} [DecidableEq α] (l : List α) (a : α)
    (h : a ∉ l) : (l ++ [a]).dedup.length = l.dedup.length + 1 := by
  rw [← List.card_toFinset, ← List.card_toFinset, List.toFinset_append]
  have hu : l.toFinset ∪ [a].toFinset = insert a l.toFinset := by
    rw [Finset.union_comm]
    simp only [List.toFinset_cons, List.toFinset_nil, insert_emptyc_eq]
    rw [← Finset.insert_eq]
  rw [hu, Finset.card_insert_of_not_mem (by simpa using h)]

/-- C10: `unique_users` counts distinct IPs over all audit rows of
every action, including the `access` rows the middleware writes for
non-operation paths; a request from a fresh IP to such a path (for
example `/` or `/stats`) therefore increases `unique_users` by one
while the three operation counters are unchanged. -/
theorem c10_access_counts_unique_users (w : World) (now : Nat) (ip path : String)
    (hp1 : path ≠ "/generate") (hp2 : path ≠ "/decode") (hp3 : path ≠ "/ocr")
    (hfresh : ip ∉ w.audit.map (fun r => r.ip)) :
    (log_requests w now ip path).audit =
      w.audit ++ [⟨w.nextId, ip, now, "access", "访问 " ++ path⟩] ∧
    get_stats (some (log_requests w now ip path).audit) =
      { generations := (get_stats (some w.audit)).generations
        decodings := (get_stats (some w.audit)).decodings
        ocr_extractions := (get_stats (some w.audit)).ocr_extractions
        unique_users := (get_stats (some w.audit)).unique_users + 1 } := by
  have haud : (log_requests w now ip path).audit =
      w.audit ++ [⟨w.nextId, ip, now, "access", "访问 " ++ path⟩] := by
    simp [log_requests, hp1, hp2, hp3, log_action]
  refine ⟨haud, ?_⟩
  rw [haud]
  have hcnt : ∀ a : String, a ≠ "access" →
      countAction
          (w.audit ++ [(⟨w.nextId, ip, now, "access", "访问 " ++ path⟩ : AuditRecord)]) a
        = countAction w.audit a := by
    intro a ha
    rw [countAction_append]
    have hz :
        countAction [(⟨w.nextId, ip, now, "access", "访问 " ++ path⟩ : AuditRecord)] a
          = 0 := by
      have hne : ("access" : String) ≠ a := fun hcontra => ha hcontra.symm
      simp [countAction, List.filter, hne]
    rw [hz]
    omega
  have huniq :
      uniqueIps (w.audit ++ [(⟨w.nextId, ip, now, "access", "访问 " ++ path⟩ : AuditRecord)])
        = uniqueIps w.audit + 1 := by
    unfold uniqueIps
    rw [List.map_append]
    exact dedup_length_append_fresh (w.audit.map (fun r => r.ip)) ip hfresh
  simp only [get_stats]
  rw [StatsSnapshot.mk.injEq]
  exact ⟨hcnt "generate" (by decide), hcnt "decode" (by decide), hcnt "ocr" (by decide), huniq⟩

theorem c10_access_counts_unique_users_witness :
    (log_requests emptyWorld 7 "8.8.8.8" "/stats").audit =
      emptyWorld.audit ++ [⟨1, "8.8.8.8", 7, "access", "访问 /stats"⟩] ∧
    get_stats (some (log_requests emptyWorld 7 "8.8.8.8" "/stats").audit) =
      { generations := (get_stats (some emptyWorld.audit)).generations
        decodings := (get_stats (some emptyWorld.audit)).decodings
        ocr_extractions := (get_stats (some emptyWorld.audit)).ocr_extractions
        unique_users := (get_stats (some emptyWorld.audit)).unique_users + 1 } :=
  c10_access_counts_unique_users emptyWorld 7 "8.8.8.8" "/stats"
    (by decide) (by decide) (by decide) (by decide)

/-- C7 (counterexample): the header row the export actually writes is
`ID, IP, 时间戳, 操作, 详情`, not the spec's
`ID, IP, Timestamp, Action, Details`. -/
theorem c7_header_counterexample :
    (export_logs []).head? = some ["ID", "IP", "时间戳", "操作", "详情"] ∧
    headerRow ≠ specHeaderRow := by
  exact ⟨rfl, by decide⟩

/-- C7 (amended): the CSV export serializes all audit records
oldest-first by id, one comma-separated row per record, preceded by the
fixed header row `ID, IP, 时间戳, 操作, 详情` (Chinese captions for
ID/IP/Timestamp/Action/Details), so the data row count equals the
record count; the stores the service builds satisfy the ascending-id
ordering because `log_action` preserves it. -/
theorem c7_export_amended (w : World) (ipX : String) (now : Nat) (a d : String)
    (hchain : List.Chain' (fun r1 r2 => r1.id < r2.id) w.audit)
    (hbound : ∀ r ∈ w.audit, r.id < w.nextId) :
    export_logs w.audit = headerRow :: w.audit.map recordRow ∧
    headerRow = ["ID", "IP", "时间戳", "操作", "详情"] ∧
    (export_logs w.audit).length = w.audit.length + 1 ∧
    exportCsv w.audit = String.join ((headerRow :: w.audit.map recordRow).map csvLine) ∧
    List.Chain' (fun r1 r2 => r1.id < r2.id) (log_action w ipX now a d).audit ∧
    (∀ r ∈ (log_action w ipX now a d).audit, r.id < (log_action w ipX now a d).nextId) := by
  refine ⟨rfl, rfl, by simp [export_logs], rfl, ?_, ?_⟩
  · rw [log_action_audit, List.chain'_append]
    refine ⟨hchain, List.chain'_singleton _, ?_⟩
    intro x hx y hy
    simp only [List.head?_cons, Option.mem_def, Option.some.injEq] at hy
    have hxeq : w.audit.getLast? = some x := hx
    obtain ⟨ys, hys⟩ := List.getLast?_eq_some_iff.mp hxeq
    have hxmem : x ∈ w.audit := by
      rw [hys]
      simp
    have := hbound x hxmem
    rw [← hy]
    exact this
  · intro r hr
    rw [log_action_audit] at hr
    rcases List.mem_append.mp hr with hr | hr
    · have := hbound r hr
      simp only [log_action]
      omega
    · rcases List.mem_singleton.mp hr with rfl
      simp [log_action]

theorem c7_export_amended_witness :
    export_logs [⟨1, "a", 0, "generate", "x"⟩, ⟨2, "b", 1, "decode", "y"⟩]
      = headerRow :: [⟨1, "a", 0, "generate", "x"⟩, ⟨2, "b", 1, "decode", "y"⟩].map recordRow ∧
    headerRow = ["ID", "IP", "时间戳", "操作", "详情"] ∧
    (export_logs [⟨1, "a", 0, "generate", "x"⟩, ⟨2, "b", 1, "decode", "y"⟩]).length = 2 + 1 ∧
    exportCsv [⟨1, "a", 0, "generate", "x"⟩, ⟨2, "b", 1, "decode", "y"⟩]
      = String.join ((headerRow ::
          [⟨1, "a", 0, "generate", "x"⟩, ⟨2, "b", 1, "decode", "y"⟩].map recordRow).map csvLine) ∧
    List.Chain' (fun r1 r2 => r1.id < r2.id)
      (log_action
        ⟨[⟨1, "a", 0, "generate", "x"⟩, ⟨2, "b", 1, "decode", "y"⟩], 3, fun _ => none⟩
        "9.9.9.9" 5 "access" "d").audit ∧
    (∀ r ∈ (log_action
        ⟨[⟨1, "a", 0, "generate", "x"⟩, ⟨2, "b", 1, "decode", "y"⟩], 3, fun _ => none⟩
        "9.9.9.9" 5 "access" "d").audit,
      r.id < (log_action
        ⟨[⟨1, "a", 0, "generate", "x"⟩, ⟨2, "b", 1, "decode", "y"⟩], 3, fun _ => none⟩
        "9.9.9.9" 5 "access" "d").nextId) :=
  c7_export_amended
    ⟨[⟨1, "a", 0, "generate", "x"⟩, ⟨2, "b", 1, "decode", "y"⟩], 3, fun _ => none⟩
    "9.9.9.9" 5 "access" "d" (by simp) (by decide)
